import Mathlib

/-!
Shallow embedding of the convergence engine of `pkg/compose/convergence.go`
(docker compose), together with theorems settling the specification claims.

Pure data is translated directly; engine I/O (create / inspect / start /
stop / remove / rename) is abstracted as oracle functions passed in as
arguments, and the observed-state store is threaded explicitly.
-/

namespace Convergence

/-- Go `strconv.Atoi` digit run: value of a non-empty all-digit run. -/
def digitsVal : Nat → List Char → Option Nat
  | acc, [] => some acc
  | acc, c :: cs => if c.isDigit then digitsVal (acc * 10 + (c.toNat - 48)) cs else none

/-- Go `strconv.Atoi`: optional sign, then one or more digits (overflow ignored). -/
def atoi (s : String) : Option Int :=
  match s.data with
  | [] => none
  | '+' :: rest => if rest.isEmpty then none else (digitsVal 0 rest).map Int.ofNat
  | '-' :: rest => if rest.isEmpty then none else (digitsVal 0 rest).map (fun n => -(n : Int))
  | l => (digitsVal 0 l).map Int.ofNat

/-- Container labels: association list, Go map semantics (missing key reads ""). -/
abbrev Labels := List (String × String)

/-- Lookup of a label key, `none` when absent (Go `v, ok := m[k]`). -/
def Labels.find : Labels → String → Option String
  | [], _ => none
  | (k, v) :: rest, key => if k = key then some v else Labels.find rest key

/-- Go map read `m[k]`: zero value "" when the key is absent. -/
def Labels.getD (l : Labels) (key : String) : String := (l.find key).getD ""

/-- Label keys used by the engine (`api` package; values as documented in the spec §6). -/
def ContainerNumberLabel : String := "com.docker.compose.container-number"

def ConfigHashLabel : String := "com.docker.compose.config-hash"

def ImageDigestLabel : String := "com.docker.compose.image.digest"

/-- Modelled from the spec: `api.Separator`, the fixed single-character name separator. -/
def Separator : String := "-"

/-- Modelled from the spec: `types.ContainerPrefix` for shared-namespace references. -/
def containerPrefix : String := "container:"

/-- Modelled from the spec: the `service:` prefix of shared-namespace references. -/
def servicePrefix : String := "service:"

/-- Recreate policies (spec §6: `never`, `force`, `diverged`). -/
def RecreateNever : String := "never"

def RecreateForce : String := "force"

/-- A volume mount on an observed container (`container.Summary.Mounts` entry). -/
structure Mount where
  type : String
  name : String
  deriving DecidableEq, Repr

/-- Observed container summary (`containerType.Summary`, the fields convergence reads). -/
structure Summary where
  id : String
  labels : Labels
  state : String
  created : Int
  /-- the `NetworkID`s of `NetworkSettings.Networks` -/
  networks : List String
  mounts : List Mount
  deriving DecidableEq, Repr

/-- Go zero value of a `Summary` (`make(Containers, expected)` entries). -/
def Summary.default : Summary := ⟨"", [], "", 0, [], []⟩

/-- A declared volume of a service config (the fields `checkExpectedVolumes` reads). -/
structure Volume where
  type : String
  source : String
  deriving DecidableEq, Repr

/-- Desired service configuration (`types.ServiceConfig`, the fields convergence reads).
`scale` holds the effective value of `GetScale()` (spec §3: integer ≥ 0, default 1);
`provider` is whether `service.Provider != nil`. -/
structure ServiceConfig where
  name : String
  containerName : String
  scale : Nat
  provider : Bool
  labels : Labels
  customLabels : Labels
  volumesFrom : List String
  networkMode : String
  ipc : String
  pid : String
  /-- declared network names (`expected.Networks` keys) -/
  networks : List String
  volumes : List Volume
  deriving DecidableEq, Repr

/-- The observed state store: service name → observed containers. -/
def Store := String → List Summary

/-- `setObservedState`: replace one service's entry wholesale. -/
def Store.set (st : Store) (name : String) (cs : List Summary) : Store :=
  fun q => if q = name then cs else st q

/-- `checkExpectedNetworks`: is the running container missing a declared network? -/
def checkExpectedNetworks (expected : ServiceConfig) (actual : Summary)
    (networks : Labels) : Bool :=
  expected.networks.any fun net =>
    let id := networks.getD net
    if id = "swarm" then false
    else !(actual.networks.any fun settings => settings = id)

/-- `checkExpectedVolumes`: is the container missing a declared named-volume mount? -/
def checkExpectedVolumes (expected : ServiceConfig) (actual : Summary)
    (volumes : Labels) : Bool :=
  expected.volumes.any fun vol =>
    if vol.type ≠ "volume" then false
    else if vol.source = "" then false
    else
      let id := volumes.getD vol.source
      !(actual.mounts.any fun m => m.type = "volume" && m.name = id)

/-- `mustRecreate`: must the observed container be replaced, given the policy?
`hash` abstracts `ServiceHash` (an external collaborator), `networks` / `volumes`
are the convergence's current id maps (`nil` modelled as `none`). -/
def mustRecreate (hash : ServiceConfig → Except String String)
    (networks volumes : Option Labels)
    (expected : ServiceConfig) (actual : Summary) (policy : String) :
    Except String Bool :=
  if policy = RecreateNever then .ok false
  else if policy = RecreateForce then .ok true
  else
    match hash expected with
    | .error e => .error e
    | .ok configHash =>
      let configChanged := actual.labels.getD ConfigHashLabel != configHash
      let imageUpdated :=
        actual.labels.getD ImageDigestLabel != expected.customLabels.getD ImageDigestLabel
      let netDiverged := match networks with
        | some nets => decide (actual.state = "running") && checkExpectedNetworks expected actual nets
        | none => false
      let volDiverged := match volumes with
        | some vols => checkExpectedVolumes expected actual vols
        | none => false
      if configChanged || imageUpdated then .ok true
      else if netDiverged then .ok true
      else if volDiverged then .ok true
      else .ok false

/-- `mustRecreate` as the sort comparator consumes it: the error is discarded
(`obsolete, _ := c.mustRecreate(...)`), `false` being the Go zero value. -/
def obsoleteB (hash : ServiceConfig → Except String String)
    (networks volumes : Option Labels)
    (service : ServiceConfig) (policy : String) (c : Summary) : Bool :=
  match mustRecreate hash networks volumes service c policy with
  | .ok b => b
  | .error _ => false

/-- The `sort.Slice` comparator of `ensureService`: obsolete containers first; among
up-to-date containers with parseable number labels, greater number first; otherwise
by ascending creation date. -/
def convLess (hash : ServiceConfig → Except String String)
    (networks volumes : Option Labels)
    (service : ServiceConfig) (policy : String) (a b : Summary) : Bool :=
  if obsoleteB hash networks volumes service policy a then true
  else if obsoleteB hash networks volumes service policy b then false
  else
    match atoi (a.labels.getD ContainerNumberLabel), atoi (b.labels.getD ContainerNumberLabel) with
    | some ni, some nj => ni > nj
    | _, _ => a.created < b.created

/-- Insert `x` into `l` before the first element `y` with `lt x y` (insertion step of
a comparator-consistent sort; `sort.Slice` leaves the algorithm unspecified). -/
def insertBy (lt : α → α → Bool) (x : α) : List α → List α
  | [] => [x]
  | y :: ys => if lt x y then x :: y :: ys else y :: insertBy lt x ys

/-- A sort consistent with the comparator `lt`, modelling `sort.Slice`. -/
def sortBy (lt : α → α → Bool) : List α → List α
  | [] => []
  | x :: xs => insertBy lt x (sortBy lt xs)

/-- The container traversal order of `ensureService`: sort by the comparator, then
`slices.Reverse`. -/
def traversalOrder (hash : ServiceConfig → Except String String)
    (networks volumes : Option Labels)
    (service : ServiceConfig) (policy : String) (cs : List Summary) : List Summary :=
  (sortBy (convLess hash networks volumes service policy) cs).reverse

/-- Modelled from the spec: the deterministic ordering `Containers.sorted()`
(not under `src/`): ascending container number, containers with an unparseable
number last, ties by ascending created timestamp, final tie by id. -/
def sortedLess (a b : Summary) : Bool :=
  match atoi (a.labels.getD ContainerNumberLabel), atoi (b.labels.getD ContainerNumberLabel) with
  | some na, some nb =>
    if na ≠ nb then na < nb
    else if a.created ≠ b.created then a.created < b.created
    else a.id < b.id
  | some _, none => true
  | none, some _ => false
  | none, none =>
    if a.created ≠ b.created then a.created < b.created
    else a.id < b.id

/-- Modelled from the spec: `Containers.sorted()`, the deterministic container ordering. -/
def sortedContainers (cs : List Summary) : List Summary := sortBy sortedLess cs

/-- The first observed container of a dependency under the deterministic ordering
(`dependencies.sorted()[0]`; the callers guard against the empty set). -/
def firstObserved (cs : List Summary) : Summary := (sortedContainers cs).headD Summary.default

/-- Resolver failures: a missing dependency (`kind` names the share failing), or an
out-of-bounds slice access (a Go panic). -/
inductive ResolveErr where
  | missing (kind : String) (name : String)
  | oob
  deriving DecidableEq, Repr

/-- Character recursion behind `splitColon`: cut the remaining characters at every
colon, `acc` holding the current field reversed. -/
def splitColonGo (acc : List Char) : List Char → List String
  | [] => [String.mk acc.reverse]
  | c :: cs =>
    if c = ':' then String.mk acc.reverse :: splitColonGo [] cs
    else splitColonGo (c :: acc) cs

/-- `strings.Split(vol, ":")`. -/
def splitColon (s : String) : List String := splitColonGo [] s.data

/-- The loop body of `resolveVolumeFrom` for one `volumes_from` entry. -/
def resolveVolumeEntry (store : Store) (vol : String) : Except ResolveErr String :=
  let spec := splitColon vol
  if spec.length = 0 then .ok vol
  else if spec.headD "" = "container" then
    match spec.get? 1 with
    | some id => .ok id
    | none => .error .oob
  else
    let name := spec.headD ""
    let dependencies := store name
    if dependencies.length = 0 then .error (.missing "volume" name)
    else .ok (firstObserved dependencies).id

/-- Sequential in-place rewrite of the entry list: the first failure aborts
(the Go `for … range` loop with an early `return`). -/
def mapEntries (f : String → Except ResolveErr String) :
    List String → Except ResolveErr (List String)
  | [] => .ok []
  | x :: xs =>
    match f x with
    | .error e => .error e
    | .ok y =>
      match mapEntries f xs with
      | .error e => .error e
      | .ok ys => .ok (y :: ys)

/-- `resolveVolumeFrom`: rewrite every `volumes_from` entry of the service config. -/
def resolveVolumeFrom (store : Store) (service : ServiceConfig) :
    Except ResolveErr ServiceConfig :=
  match mapEntries (resolveVolumeEntry store) service.volumesFrom with
  | .error e => .error e
  | .ok vols => .ok { service with volumesFrom := vols }

/-- Is `p` a prefix of `l`? (`strings.HasPrefix` on character lists.) -/
def isPrefixOfChars : List Char → List Char → Bool
  | [], _ => true
  | _ :: _, [] => false
  | p :: ps, c :: cs => p = c && isPrefixOfChars ps cs

/-- Modelled from the spec: `getDependentServiceFromMode` (not under `src/`): the
service name of a `service:<svc>` mode string, "" otherwise. -/
def getDependentServiceFromMode (mode : String) : String :=
  if isPrefixOfChars servicePrefix.data mode.data then
    String.mk (mode.data.drop servicePrefix.data.length)
  else ""

/-- One shared-namespace block of `resolveSharedNamespaces` (`networkMode` / `ipc` /
`pid` run the same logic in sequence, differing only in the error message). -/
def resolveNamespace (store : Store) (kind : String) (mode : String) :
    Except ResolveErr String :=
  let name := getDependentServiceFromMode mode
  if name ≠ "" then
    let dependencies := store name
    if dependencies.length = 0 then .error (.missing kind name)
    else .ok (containerPrefix ++ (firstObserved dependencies).id)
  else .ok mode

/-- `resolveSharedNamespaces`: rewrite `networkMode`, then `ipc`, then `pid`. -/
def resolveSharedNamespaces (store : Store) (service : ServiceConfig) :
    Except ResolveErr ServiceConfig :=
  match resolveNamespace store "network" service.networkMode with
  | .error e => .error e
  | .ok nm =>
    match resolveNamespace store "IPC" service.ipc with
    | .error e => .error e
    | .ok ipc =>
      match resolveNamespace store "PID" service.pid with
      | .error e => .error e
      | .ok pid => .ok { service with networkMode := nm, ipc := ipc, pid := pid }

/-- `resolveServiceReferences`: volumes-from first, then shared namespaces. -/
def resolveServiceReferences (store : Store) (service : ServiceConfig) :
    Except ResolveErr ServiceConfig :=
  match resolveVolumeFrom store service with
  | .error e => .error e
  | .ok s => resolveSharedNamespaces store s

/-- `getDefaultContainerName`: join project, service and index with the separator. -/
def getDefaultContainerName (projectName serviceName index : String) : String :=
  projectName ++ Separator ++ serviceName ++ Separator ++ index

/-- `getContainerName`: the default scheme unless a custom container name overrides it. -/
def getContainerName (projectName : String) (service : ServiceConfig) (number : Int) : String :=
  if service.containerName ≠ "" then service.containerName
  else getDefaultContainerName projectName service.name (toString number)

/-- `getScale`: the effective scale, rejecting a custom container name with scale > 1. -/
def getScale (config : ServiceConfig) : Except String Nat :=
  if config.scale > 1 ∧ config.containerName ≠ "" then
    .error ("WARNING: The " ++ config.name ++ " service is using the custom container name "
      ++ config.containerName ++ ". Docker requires each container to have a unique name. "
      ++ "Remove the custom name to scale the service")
  else .ok config.scale

/-- `nextContainerNumber`: one plus the maximum parseable container-number label
(1 when none parses; unlabelled or unparseable containers only produce a warning). -/
def nextContainerNumber (containers : List Summary) : Int :=
  (containers.foldl (fun maxNumber c =>
    match atoi (c.labels.getD ContainerNumberLabel) with
    | none => maxNumber
    | some n => if n > maxNumber then n else maxNumber) 0) + 1

/-- Engine operations issued by the recreate protocol, in issue order. -/
inductive EngineOp where
  | create (name : String) (number : Int)
  | stop (id : String)
  | remove (id : String)
  | rename (oldName newName : String)
  deriving DecidableEq, Repr

/-- The engine port as the recreate protocol drives it (`createMobyContainer`
abstracted to its create call). -/
structure RecreateEngine where
  create : String → Int → Except String Summary
  stop : String → Except String Unit
  remove : String → Except String Unit
  rename : String → String → Except String Unit

/-- `recreateContainer`: create the replacement under a transient name, stop the
victim, remove it, rename the replacement; the trace of issued engine operations
is returned alongside the result. -/
def recreateContainer (eng : RecreateEngine) (projectName : String)
    (service : ServiceConfig) (replaced : Summary) :
    Except String Summary × List EngineOp :=
  match atoi (replaced.labels.getD ContainerNumberLabel) with
  | none => (.error ("invalid container number label on " ++ replaced.id), [])
  | some number =>
    let name := getContainerName projectName service number
    let tmpName := (replaced.id.take 12) ++ "_" ++ name
    match eng.create tmpName number with
    | .error e => (.error e, [.create tmpName number])
    | .ok created =>
      match eng.stop replaced.id with
      | .error e => (.error e, [.create tmpName number, .stop replaced.id])
      | .ok _ =>
        match eng.remove replaced.id with
        | .error e =>
          (.error e, [.create tmpName number, .stop replaced.id, .remove replaced.id])
        | .ok _ =>
          match eng.rename tmpName name with
          | .error e =>
            (.error e, [.create tmpName number, .stop replaced.id,
              .remove replaced.id, .rename tmpName name])
          | .ok _ =>
            (.ok created, [.create tmpName number, .stop replaced.id,
              .remove replaced.id, .rename tmpName name])

/-- What `ContainerInspect` reports about one container (the fields the wait
conditions read; a stripped leading slash on the name is pre-applied). -/
structure Detail where
  name : String
  status : String
  exitCode : Int
  hasHealthcheck : Bool
  health : Option String
  deriving DecidableEq, Repr

/-- `isServiceHealthy`: walk the containers in order; exited or unhealthy or missing
healthcheck fail, a starting container reports not-yet-healthy, and success requires
reaching the end of the list. -/
def isServiceHealthy (inspect : String → Except String Detail)
    (containers : List Summary) (fallbackRunning : Bool) : Except String Bool :=
  match containers with
  | [] => .ok true
  | c :: rest =>
    match inspect c.id with
    | .error e => .error e
    | .ok d =>
      if d.status = "exited" then
        .error ("container " ++ d.name ++ " exited (" ++ toString d.exitCode ++ ")")
      else if !d.hasHealthcheck && fallbackRunning then .ok (d.status == "running")
      else
        match d.health with
        | none => .error ("container " ++ d.name ++ " has no healthcheck configured")
        | some h =>
          if h = "healthy" then isServiceHealthy inspect rest fallbackRunning
          else if h = "unhealthy" then .error ("container " ++ d.name ++ " is unhealthy")
          else if h = "starting" then .ok false
          else .error ("container " ++ d.name ++ " had unexpected health status " ++ h)

/-- `isServiceCompleted`: the first container in order whose state is exited
determines the result (exited flag and its exit code). -/
def isServiceCompleted (inspect : String → Except String Detail)
    (containers : List Summary) : Except String (Bool × Int) :=
  match containers with
  | [] => .ok (false, 0)
  | c :: rest =>
    match inspect c.id with
    | .error e => .error e
    | .ok d =>
      if d.status = "exited" then .ok (true, d.exitCode)
      else isServiceCompleted inspect rest

/-- Outcome of one tick of the `waitDependencies` poll loop for one dependency. -/
inductive WaitStep where
  | success
  | skipped
  | failed (msg : String)
  | poll
  deriving DecidableEq, Repr

/-- One tick of the poll loop for condition `service_healthy`: a health-check error
fails a required dependency and skips an optional one. -/
def healthyStep (required : Bool) (inspect : String → Except String Detail)
    (waitingFor : List Summary) : WaitStep :=
  match isServiceHealthy inspect waitingFor false with
  | .error e => if !required then .skipped else .failed ("dependency failed to start: " ++ e)
  | .ok true => .success
  | .ok false => .poll

/-- The `%q didn't complete successfully: exit %d` message suffix. -/
def completedMsg (dep : String) (code : Int) : String :=
  "\"" ++ dep ++ "\" didn't complete successfully: exit " ++ toString code

/-- One tick of the poll loop for condition `service_completed_successfully`:
an inspect error propagates; once some container has exited, exit code 0 succeeds,
a non-zero code fails a required dependency and skips an optional one. -/
def completedStep (dep : String) (required : Bool)
    (inspect : String → Except String Detail) (waitingFor : List Summary) :
    Except String WaitStep :=
  match isServiceCompleted inspect waitingFor with
  | .error e => .error e
  | .ok (exited, code) =>
    if exited then
      if code = 0 then .ok .success
      else if !required then .ok .skipped
      else .ok (.failed ("service " ++ completedMsg dep code))
    else .ok .poll

/-- The error messages `ensureService` surfaces for resolver failures (a Go panic
rendered as its runtime error text). -/
def ResolveErr.message : ResolveErr → String
  | .missing kind name =>
    if kind = "volume" then "cannot share volume with service " ++ name ++ ": container missing"
    else "cannot share " ++ kind ++ " namespace with service " ++ name ++ ": container missing"
  | .oob => "runtime error: index out of range"

/-- Operations `ensureService` schedules against the engine. -/
inductive SvcOp where
  | scaleDown (id : String)
  | recreate (id : String)
  | start (id : String)
  | create (name : String) (number : Int)
  deriving DecidableEq, Repr

/-- Oracles for everything `ensureService` delegates: the config hash, the
current network/volume id maps, and the outcome of each scheduled task
(`stopAndRemoveContainer`, `recreateContainer`, `startContainer`,
`createContainer`, `stopDependentContainers`, `runPlugin`). -/
structure ConvEnv where
  hash : ServiceConfig → Except String String
  networks : Option Labels
  volumes : Option Labels
  stopAndRemove : Summary → Except String Unit
  recreateRes : Summary → Except String Summary
  startRes : Summary → Except String Unit
  createRes : String → Int → Except String Summary
  stopDeps : Store → Except String Store
  plugin : Except String Unit

/-- Accumulated state of the `ensureService` container loop: the threaded store,
the `updated` output vector, the collected task results, and the operation trace. -/
structure LoopSt where
  store : Store
  updated : List Summary
  results : List (Except String Unit)
  ops : List SvcOp

/-- The container traversal loop of `ensureService`: scale down indices past
`expected`, recreate divergent containers (stopping restart-dependents first),
start stopped up-to-date ones; `mustRecreate` or stop-dependents failures abort
the loop early. -/
def goItems (env : ConvEnv) (svc : ServiceConfig) (policy : String) (expected : Nat) :
    Nat → List Summary → LoopSt → Except (String × LoopSt) LoopSt
  | _, [], st => .ok st
  | i, c :: rest, st =>
    if i ≥ expected then
      goItems env svc policy expected (i + 1) rest
        { st with results := st.results ++ [env.stopAndRemove c],
                  ops := st.ops ++ [.scaleDown c.id] }
    else
      match mustRecreate env.hash env.networks env.volumes svc c policy with
      | .error e => .error (e, st)
      | .ok true =>
        match env.stopDeps st.store with
        | .error e => .error (e, st)
        | .ok store2 =>
          let r := env.recreateRes c
          goItems env svc policy expected (i + 1) rest
            { store := store2,
              updated := st.updated.set i (match r with | .ok s => s | .error _ => Summary.default),
              results := st.results ++ [r.map fun _ => ()],
              ops := st.ops ++ [.recreate c.id] }
      | .ok false =>
        let noStart := c.state == "running" || c.state == "created"
          || c.state == "restarting" || c.state == "exited"
        let st2 := if noStart then st
          else { st with results := st.results ++ [env.startRes c],
                         ops := st.ops ++ [.start c.id] }
        goItems env svc policy expected (i + 1) rest
          { st2 with updated := st2.updated.set i c }

/-- The scale-up loop of `ensureService`: the k-th new container gets number
`next + k` and the canonical name, its result placed at index `actual + k`. -/
def scaleUp (env : ConvEnv) (projectName : String) (svc : ServiceConfig)
    (next : Int) (actual : Nat) : Nat → Nat → LoopSt → LoopSt
  | _, 0, st => st
  | i, Nat.succ remaining, st =>
    let number := next + (i : Int)
    let name := getContainerName projectName svc number
    let r := env.createRes name number
    scaleUp env projectName svc next actual (i + 1) remaining
      { st with
        updated := st.updated.set (actual + i)
          (match r with | .ok s => s | .error _ => Summary.default),
        results := st.results ++ [r.map fun _ => ()],
        ops := st.ops ++ [.create name number] }

/-- The first error among the collected task results (`errgroup.Wait`, made
deterministic by schedule order). -/
def firstError : List (Except String Unit) → Except String Unit
  | [] => .ok ()
  | .error e :: _ => .error e
  | .ok _ :: rest => firstError rest

/-- Result of one `ensureService` run: the store after the run, the returned
error, and the trace of scheduled engine operations. -/
structure ConvResult where
  store : Store
  err : Except String Unit
  ops : List SvcOp

/-- `ensureService`: converge one service — provider delegation, scale check,
reference resolution, sorted traversal (scale down / recreate / start),
scale up, then write `updated` to the store even when tasks failed. -/
def ensureService (env : ConvEnv) (store : Store) (projectName : String)
    (service : ServiceConfig) (policy : String) : ConvResult :=
  if service.provider then ⟨store, env.plugin, []⟩
  else
    match getScale service with
    | .error e => ⟨store, .error e, []⟩
    | .ok expected =>
      let containers := store service.name
      let actual := containers.length
      match resolveServiceReferences store service with
      | .error e => ⟨store, .error e.message, []⟩
      | .ok svc =>
        let sorted := traversalOrder env.hash env.networks env.volumes svc policy containers
        let st0 : LoopSt := ⟨store, List.replicate expected Summary.default, [], []⟩
        match goItems env svc policy expected 0 sorted st0 with
        | .error (e, st) => ⟨st.store, .error e, st.ops⟩
        | .ok st =>
          let next := nextContainerNumber sorted
          let st2 := scaleUp env projectName svc next actual 0 (expected - actual) st
          ⟨st2.store.set service.name st2.updated, firstError st2.results, st2.ops⟩

/-! ## Concrete fixtures used by witnesses and counterexamples -/

/-- A convergence environment whose oracles all succeed trivially. -/
def trivEnv : ConvEnv where
  hash := fun _ => .ok "h0"
  networks := none
  volumes := none
  stopAndRemove := fun _ => .ok ()
  recreateRes := fun _ => .ok Summary.default
  startRes := fun _ => .ok ()
  createRes := fun _ _ => .ok Summary.default
  stopDeps := fun s => .ok s
  plugin := .ok ()

/-- The empty observed-state store. -/
def emptyStore : Store := fun _ => []

/-- A minimal service config fixture. -/
def svcPlain : ServiceConfig :=
  ⟨"web", "", 1, false, [], [], [], "", "", "", [], []⟩

/-! ## C3: recreate policy never / force -/

/-- C3: for every desired service, observed container and network/volume maps,
`mustRecreate` returns false under policy `never` and true under policy `force`,
regardless of config hash, image digest, network attachment or volume mounts. -/
theorem mustRecreate_policy_never_force
    (hash : ServiceConfig → Except String String) (networks volumes : Option Labels)
    (expected : ServiceConfig) (actual : Summary) :
    mustRecreate hash networks volumes expected actual RecreateNever = .ok false ∧
    mustRecreate hash networks volumes expected actual RecreateForce = .ok true := by
  constructor
  · simp [mustRecreate]
  · simp [mustRecreate, RecreateForce, RecreateNever]

/-! ## C9: custom container name with scale > 1 -/

/-- C9: a service declaring a custom container name with scale greater than 1 makes
`ensureService` fail before issuing any engine operation, leaving the store
unchanged; a custom container name with scale at most 1 is accepted by `getScale`. -/
theorem ensureService_custom_name_scale (env : ConvEnv) (store : Store)
    (projectName : String) (service : ServiceConfig) (policy : String)
    (hprov : service.provider = false) (hname : service.containerName ≠ "")
    (hscale : 1 < service.scale) :
    (∃ e, ensureService env store projectName service policy =
      ⟨store, .error e, []⟩) ∧
    (∀ cfg : ServiceConfig, cfg.scale ≤ 1 → getScale cfg = .ok cfg.scale) := by
  constructor
  · have hg : getScale service = .error ("WARNING: The " ++ service.name
        ++ " service is using the custom container name " ++ service.containerName
        ++ ". Docker requires each container to have a unique name. "
        ++ "Remove the custom name to scale the service") := by
      rw [getScale, if_pos ⟨hscale, hname⟩]
    refine ⟨"WARNING: The " ++ service.name
        ++ " service is using the custom container name " ++ service.containerName
        ++ ". Docker requires each container to have a unique name. "
        ++ "Remove the custom name to scale the service", ?_⟩
    simp only [ensureService, hprov, Bool.false_eq_true, if_false, hg]
  · intro cfg hle
    rw [getScale, if_neg]
    rintro ⟨h1, _⟩
    omega

/-- A service config with a custom name and scale 2 (rejected by `getScale`). -/
def svcDoubled : ServiceConfig :=
  ⟨"web", "custom", 2, false, [], [], [], "", "", "", [], []⟩

/-- Witness for C9 at a concrete service with custom name and scale 2. -/
theorem ensureService_custom_name_scale_witness :
    (∃ e, ensureService trivEnv emptyStore "proj" svcDoubled "never" =
      ⟨emptyStore, .error e, []⟩) ∧
    (∀ cfg : ServiceConfig, cfg.scale ≤ 1 → getScale cfg = .ok cfg.scale) :=
  ensureService_custom_name_scale trivEnv emptyStore "proj" svcDoubled "never"
    rfl (by decide) (by decide)

/-! ## C4: the recreate protocol -/

/-- C4: a recreate parses the victim's container-number label, creates the
replacement under the transient name `first12(id) ++ "_" ++ canonical`, then stops
the victim, removes it and renames the replacement to the canonical name, in that
order; any failure leaves the trace a prefix of that sequence — nothing is rolled
back — and on success the replacement is the created container. -/
theorem recreateContainer_protocol (eng : RecreateEngine) (projectName : String)
    (service : ServiceConfig) (replaced : Summary) (number : Int)
    (hn : atoi (replaced.labels.getD ContainerNumberLabel) = some number) :
    (recreateContainer eng projectName service replaced).snd <+:
      [EngineOp.create
          (replaced.id.take 12 ++ "_" ++ getContainerName projectName service number) number,
        EngineOp.stop replaced.id, EngineOp.remove replaced.id,
        EngineOp.rename
          (replaced.id.take 12 ++ "_" ++ getContainerName projectName service number)
          (getContainerName projectName service number)] ∧
    (∀ c, (recreateContainer eng projectName service replaced).fst = .ok c →
      eng.create
          (replaced.id.take 12 ++ "_" ++ getContainerName projectName service number) number
        = .ok c ∧
      (recreateContainer eng projectName service replaced).snd =
        [EngineOp.create
            (replaced.id.take 12 ++ "_" ++ getContainerName projectName service number) number,
          EngineOp.stop replaced.id, EngineOp.remove replaced.id,
          EngineOp.rename
            (replaced.id.take 12 ++ "_" ++ getContainerName projectName service number)
            (getContainerName projectName service number)]) := by
  simp only [recreateContainer, hn]
  rcases hc : eng.create
      (replaced.id.take 12 ++ "_" ++ getContainerName projectName service number) number
    with e | created <;> simp only [hc]
  · exact ⟨⟨_, rfl⟩, fun c h => by simp at h⟩
  rcases hs : eng.stop replaced.id with e | u <;> simp only [hs]
  · exact ⟨⟨_, rfl⟩, fun c h => by simp at h⟩
  rcases hr : eng.remove replaced.id with e | u <;> simp only [hr]
  · exact ⟨⟨_, rfl⟩, fun c h => by simp at h⟩
  rcases hren : eng.rename
      (replaced.id.take 12 ++ "_" ++ getContainerName projectName service number)
      (getContainerName projectName service number) with e | u <;> simp only [hren]
  · exact ⟨⟨[], by simp⟩, fun c h => by simp at h⟩
  · refine ⟨⟨[], by simp⟩, fun c h => ?_⟩
    simp only [Except.ok.injEq] at h
    subst h
    exact ⟨rfl, by simp⟩

/-- A victim container fixture with number label 3. -/
def victim : Summary :=
  ⟨"0123456789abcdef", [(ContainerNumberLabel, "3")], "running", 5, [], []⟩

/-- An engine fixture whose operations all succeed. -/
def engOk : RecreateEngine where
  create := fun _ _ => .ok ⟨"newid", [], "created", 9, [], []⟩
  stop := fun _ => .ok ()
  remove := fun _ => .ok ()
  rename := fun _ _ => .ok ()

/-- Witness for C4 at a concrete victim and an all-succeeding engine. -/
theorem recreateContainer_protocol_witness :
    (recreateContainer engOk "proj" svcPlain victim).snd <+:
      [EngineOp.create
          (victim.id.take 12 ++ "_" ++ getContainerName "proj" svcPlain 3) 3,
        EngineOp.stop victim.id, EngineOp.remove victim.id,
        EngineOp.rename
          (victim.id.take 12 ++ "_" ++ getContainerName "proj" svcPlain 3)
          (getContainerName "proj" svcPlain 3)] ∧
    (∀ c, (recreateContainer engOk "proj" svcPlain victim).fst = .ok c →
      engOk.create
          (victim.id.take 12 ++ "_" ++ getContainerName "proj" svcPlain 3) 3
        = .ok c ∧
      (recreateContainer engOk "proj" svcPlain victim).snd =
        [EngineOp.create
            (victim.id.take 12 ++ "_" ++ getContainerName "proj" svcPlain 3) 3,
          EngineOp.stop victim.id, EngineOp.remove victim.id,
          EngineOp.rename
            (victim.id.take 12 ++ "_" ++ getContainerName "proj" svcPlain 3)
            (getContainerName "proj" svcPlain 3)]) :=
  recreateContainer_protocol engOk "proj" svcPlain victim 3 (by decide)

/-! ## C10: bounds of the colon-split accesses in resolveVolumeFrom -/

/-- C10 counterexample: the literal entry `container` splits into a single segment
whose first element is `container`, and the access to the second segment is out of
bounds (a Go panic), refuting the in-bounds claim. -/
theorem resolveVolumeEntry_bare_container_oob :
    resolveVolumeEntry emptyStore "container" = .error .oob ∧
    (splitColon "container").length = 1 := by
  constructor <;> rfl

/-- C10 amended: the accesses on the colon-split are in bounds for every entry
whose first segment is `container` and which contains a colon (the second segment
is then read), and for every entry whose first segment is not `container`; only
the literal colon-free entry `container` reads out of bounds. -/
theorem resolveVolumeEntry_inbounds (store : Store) (entry : String) :
    ((splitColon entry).headD "" = "container" → 1 < (splitColon entry).length →
      ∃ id, resolveVolumeEntry store entry = .ok id ∧
        (splitColon entry).get? 1 = some id) ∧
    ((splitColon entry).headD "" ≠ "container" →
      resolveVolumeEntry store entry ≠ .error .oob) := by
  constructor
  · intro hhead hlen
    refine ⟨(splitColon entry).get ⟨1, hlen⟩, ?_, (List.get?_eq_get hlen).symm ▸ rfl⟩
    rw [resolveVolumeEntry]
    simp only [if_neg (by omega : ¬(splitColon entry).length = 0), if_pos hhead,
      List.get?_eq_get hlen]
  · intro hhead
    rw [resolveVolumeEntry]
    by_cases h0 : (splitColon entry).length = 0
    · simp [h0]
    · simp only [if_neg h0, if_neg hhead]
      split <;> simp

/-- Witness for C10 amended at the entries `container:abc` and `db`. -/
theorem resolveVolumeEntry_inbounds_witness :
    (∃ id, resolveVolumeEntry emptyStore "container:abc" = .ok id ∧
      (splitColon "container:abc").get? 1 = some id) ∧
    (resolveVolumeEntry emptyStore "db" ≠ .error .oob) :=
  ⟨(resolveVolumeEntry_inbounds emptyStore "container:abc").1 (by decide) (by decide),
   (resolveVolumeEntry_inbounds emptyStore "db").2 (by decide)⟩

/-! ## C5: reference resolution -/

/-- C5: `volumes_from` entries `container:ID` are stripped to `ID`; entries naming a
service resolve to the first observed container under the deterministic ordering and
fail with a missing-dependency error exactly when the observed set is empty; the
entry walk fails exactly when some entry fails; `service:<svc>` shared-namespace
modes rewrite to `container:` + the first observed container's id with the same
missing-dependency behaviour, and the three namespace fields compose in order. -/
theorem resolveServiceReferences_rewrites (store : Store) :
    (∀ entry id, splitColon entry = ["container", id] →
      resolveVolumeEntry store entry = .ok id) ∧
    (∀ entry name rest, splitColon entry = name :: rest → name ≠ "container" →
      ((store name).length = 0 →
        resolveVolumeEntry store entry = .error (.missing "volume" name)) ∧
      ((store name).length ≠ 0 →
        resolveVolumeEntry store entry = .ok (firstObserved (store name)).id)) ∧
    (∀ entries, (∃ e, mapEntries (resolveVolumeEntry store) entries = .error e) ↔
      ∃ entry ∈ entries, ∃ e, resolveVolumeEntry store entry = .error e) ∧
    (∀ kind mode name, getDependentServiceFromMode mode = name → name ≠ "" →
      ((store name).length = 0 →
        resolveNamespace store kind mode = .error (.missing kind name)) ∧
      ((store name).length ≠ 0 →
        resolveNamespace store kind mode =
          .ok (containerPrefix ++ (firstObserved (store name)).id))) ∧
    (∀ kind mode, getDependentServiceFromMode mode = "" →
      resolveNamespace store kind mode = .ok mode) ∧
    (∀ svc nm ipc pid, resolveNamespace store "network" svc.networkMode = .ok nm →
      resolveNamespace store "IPC" svc.ipc = .ok ipc →
      resolveNamespace store "PID" svc.pid = .ok pid →
      resolveSharedNamespaces store svc =
        .ok { svc with networkMode := nm, ipc := ipc, pid := pid }) := by
  refine ⟨?_, ?_, ?_, ?_, ?_, ?_⟩
  · intro entry id hsplit
    rw [resolveVolumeEntry, hsplit]
    rfl
  · intro entry name rest hsplit hname
    have hhead : (splitColon entry).headD "" = name := by rw [hsplit]; rfl
    constructor
    · intro hempty
      rw [resolveVolumeEntry]
      simp only [hsplit, List.length_cons, if_neg (Nat.succ_ne_zero _)]
      rw [if_neg (by simpa [hsplit] using hname)]
      simp only [hsplit, List.headD_cons, if_pos hempty]
    · intro hne
      rw [resolveVolumeEntry]
      simp only [hsplit, List.length_cons, if_neg (Nat.succ_ne_zero _)]
      rw [if_neg (by simpa [hsplit] using hname)]
      simp only [hsplit, List.headD_cons, if_neg hne]
  · intro entries
    induction entries with
    | nil => simp [mapEntries]
    | cons x xs ih =>
      rw [mapEntries]
      rcases hx : resolveVolumeEntry store x with e | y
      · simp [hx]
      · rcases hxs : mapEntries (resolveVolumeEntry store) xs with e | ys
        · simp only [hxs]
          constructor
          · intro _
            obtain ⟨entry, hm, he⟩ := ih.mp ⟨e, hxs⟩
            exact ⟨entry, List.mem_cons_of_mem _ hm, he⟩
          · intro _
            exact ⟨e, rfl⟩
        · simp only [hxs]
          constructor
          · rintro ⟨e, h⟩
            simp at h
          · rintro ⟨entry, hm, e, he⟩
            rcases List.mem_cons.mp hm with rfl | hm
            · rw [hx] at he
              simp at he
            · obtain ⟨e', he'⟩ := ih.mpr ⟨entry, hm, e, he⟩
              rw [hxs] at he'
              simp at he'
  · intro kind mode name hmode hname
    constructor
    · intro hempty
      rw [resolveNamespace, hmode, if_pos hname, if_pos hempty]
    · intro hne
      rw [resolveNamespace, hmode, if_pos hname, if_neg hne]
  · intro kind mode hmode
    rw [resolveNamespace, hmode, if_neg (by simp)]
  · intro svc nm ipc pid h1 h2 h3
    rw [resolveSharedNamespaces, h1, h2, h3]

/-- Observed container fixture: service `db`, number 1. -/
def dbc1 : Summary := ⟨"id-db-1", [(ContainerNumberLabel, "1")], "running", 10, [], []⟩

/-- Observed container fixture: service `db`, number 2. -/
def dbc2 : Summary := ⟨"id-db-2", [(ContainerNumberLabel, "2")], "running", 20, [], []⟩

/-- A store observing two `db` containers (listed out of number order). -/
def store5 : Store := fun n => if n = "db" then [dbc2, dbc1] else []

/-- Witness for C5 at concrete entries and modes over `store5`. -/
theorem resolveServiceReferences_rewrites_witness :
    resolveVolumeEntry store5 "container:abc" = .ok "abc" ∧
    resolveVolumeEntry store5 "db:ro" = .ok (firstObserved (store5 "db")).id ∧
    ((∃ e, mapEntries (resolveVolumeEntry store5) ["ghost"] = .error e) ↔
      ∃ entry ∈ ["ghost"], ∃ e, resolveVolumeEntry store5 entry = .error e) ∧
    resolveNamespace store5 "network" "service:db" =
      .ok (containerPrefix ++ (firstObserved (store5 "db")).id) ∧
    resolveNamespace store5 "IPC" "host" = .ok "host" :=
  ⟨(resolveServiceReferences_rewrites store5).1 "container:abc" "abc" (by decide),
   ((resolveServiceReferences_rewrites store5).2.1 "db:ro" "db" ["ro"]
     (by decide) (by decide)).2 (by decide),
   (resolveServiceReferences_rewrites store5).2.2.1 ["ghost"],
   ((resolveServiceReferences_rewrites store5).2.2.2.1 "network" "service:db" "db"
     (by decide) (by decide)).2 (by decide),
   (resolveServiceReferences_rewrites store5).2.2.2.2.1 "IPC" "host" (by decide)⟩

/-! ## C2: the completed-successfully condition -/

/-- Containers that were inspected as not exited are skipped by the
completed-successfully scan. -/
theorem isServiceCompleted_prefix_skip (inspect : String → Except String Detail)
    (pre rest : List Summary)
    (hpre : ∀ p ∈ pre, ∃ dp, inspect p.id = .ok dp ∧ dp.status ≠ "exited") :
    isServiceCompleted inspect (pre ++ rest) = isServiceCompleted inspect rest := by
  induction pre with
  | nil => rfl
  | cons p ps ih =>
    obtain ⟨dp, hdp, hne⟩ := hpre p (List.mem_cons_self p ps)
    rw [List.cons_append]
    simp only [isServiceCompleted, hdp, if_neg hne]
    exact ih fun q hq => hpre q (List.mem_cons_of_mem _ hq)

/-- Waiting container fixture `wa` (inspected as exited 1 by `insp2`). -/
def wa : Summary := ⟨"wa", [], "exited", 0, [], []⟩

/-- Waiting container fixture `wb` (inspected as exited 0 by `insp2`). -/
def wb : Summary := ⟨"wb", [], "exited", 0, [], []⟩

/-- Inspect oracle: `wa` exited with code 1, everything else exited with code 0. -/
def insp2 : String → Except String Detail := fun id =>
  if id = "wa" then .ok ⟨"wa", "exited", 1, false, none⟩
  else .ok ⟨"wb", "exited", 0, false, none⟩

/-- C2 counterexample: `wb` has exited with code 0, yet the wait tick fails, because
`isServiceCompleted` stops at the first exited container (`wa`, code 1); so success
is not equivalent to "some observed container exited with code 0". -/
theorem completedStep_not_any_exit_zero :
    completedStep "dep" true insp2 [wa, wb] =
      .ok (.failed ("service " ++ completedMsg "dep" 1)) ∧
    (∃ c ∈ [wa, wb], ∃ d, insp2 c.id = .ok d ∧ d.status = "exited" ∧ d.exitCode = 0) ∧
    completedStep "dep" true insp2 [wa, wb] ≠ .ok .success := by
  refine ⟨rfl, ⟨wb, by simp, ⟨"wb", "exited", 0, false, none⟩, rfl, rfl, rfl⟩, ?_⟩
  intro h
  exact WaitStep.noConfusion (Except.ok.inj h)

/-- C2 amended: the tick outcome is decided by the first container in observation
order whose state is exited — exit code 0 succeeds, a non-zero code fails when the
dependency is required and is downgraded to a skip when it is optional. -/
theorem completedStep_first_exited (dep : String) (required : Bool)
    (inspect : String → Except String Detail) (pre post : List Summary)
    (c : Summary) (d : Detail)
    (hpre : ∀ p ∈ pre, ∃ dp, inspect p.id = .ok dp ∧ dp.status ≠ "exited")
    (hc : inspect c.id = .ok d) (hex : d.status = "exited") :
    (d.exitCode = 0 →
      completedStep dep required inspect (pre ++ c :: post) = .ok .success) ∧
    (d.exitCode ≠ 0 → required = true →
      completedStep dep required inspect (pre ++ c :: post) =
        .ok (.failed ("service " ++ completedMsg dep d.exitCode))) ∧
    (d.exitCode ≠ 0 → required = false →
      completedStep dep required inspect (pre ++ c :: post) = .ok .skipped) := by
  have hcomp : isServiceCompleted inspect (pre ++ c :: post) = .ok (true, d.exitCode) := by
    rw [isServiceCompleted_prefix_skip inspect pre _ hpre]
    simp only [isServiceCompleted, hc, if_pos hex]
  refine ⟨fun h0 => ?_, fun h0 hr => ?_, fun h0 hr => ?_⟩ <;>
    simp [completedStep, hcomp, h0] <;> simp [hr]

/-- Witness for C2 amended: a lone container exited with code 0 succeeds. -/
theorem completedStep_first_exited_witness :
    completedStep "dep" true insp2 [wb] = .ok .success :=
  (completedStep_first_exited "dep" true insp2 [] [] wb
    ⟨"wb", "exited", 0, false, none⟩ (by simp) rfl rfl).1 rfl

/-! ## C6: the service_healthy condition -/

/-- Healthy containers are skipped by the health scan (no-fallback mode). -/
theorem isServiceHealthy_prefix_skip (inspect : String → Except String Detail)
    (pre rest : List Summary)
    (hpre : ∀ p ∈ pre, ∃ dp, inspect p.id = .ok dp ∧ dp.status ≠ "exited" ∧
      dp.health = some "healthy") :
    isServiceHealthy inspect (pre ++ rest) false = isServiceHealthy inspect rest false := by
  induction pre with
  | nil => rfl
  | cons p ps ih =>
    obtain ⟨dp, hdp, hne, hh⟩ := hpre p (List.mem_cons_self p ps)
    rw [List.cons_append]
    simp only [isServiceHealthy, hdp, if_neg hne, Bool.and_false, hh]
    simp only [if_pos rfl, Bool.false_eq_true, if_false]
    exact ih fun q hq => hpre q (List.mem_cons_of_mem _ hq)

/-- The health scan reports overall health only when every container in the list
was inspected as healthy. -/
theorem isServiceHealthy_ok_true (inspect : String → Except String Detail)
    (cs : List Summary) (h : isServiceHealthy inspect cs false = .ok true) :
    ∀ x ∈ cs, ∃ dx, inspect x.id = .ok dx ∧ dx.status ≠ "exited" ∧
      dx.health = some "healthy" := by
  induction cs with
  | nil => simp
  | cons c rest ih =>
    rcases hc : inspect c.id with e | d
    · simp [isServiceHealthy, hc] at h
    by_cases hex : d.status = "exited"
    · simp [isServiceHealthy, hc, hex] at h
    rcases hh : d.health with _ | hstr
    · simp [isServiceHealthy, hc, hex, hh] at h
    by_cases h1 : hstr = "healthy"
    · subst h1
      simp only [isServiceHealthy, hc, if_neg hex, Bool.and_false,
        Bool.false_eq_true, if_false, hh, if_pos rfl] at h
      intro x hx
      rcases List.mem_cons.mp hx with rfl | hx
      · exact ⟨d, hc, hex, hh⟩
      · exact ih h x hx
    by_cases h2 : hstr = "unhealthy"
    · simp [isServiceHealthy, hc, hex, hh, h1, h2] at h
    by_cases h3 : hstr = "starting"
    · simp [isServiceHealthy, hc, hex, hh, h1, h2, h3] at h
    · simp [isServiceHealthy, hc, hex, hh, h1, h2, h3] at h

/-- Waiting container fixture `ha` (inspected as starting by `insp6`). -/
def ha : Summary := ⟨"ha", [], "running", 0, [], []⟩

/-- Waiting container fixture `hb` (inspected as unhealthy by `insp6`). -/
def hb : Summary := ⟨"hb", [], "running", 0, [], []⟩

/-- Inspect oracle: `ha` is starting, everything else is unhealthy. -/
def insp6 : String → Except String Detail := fun id =>
  if id = "ha" then .ok ⟨"ha", "running", 0, true, some "starting"⟩
  else .ok ⟨"hb", "running", 0, true, some "unhealthy"⟩

/-- C6 counterexample: `hb` is unhealthy, yet the required wait tick keeps polling
instead of failing, because the scan stops at the first starting container (`ha`);
so "fails when any container is unhealthy" does not hold. -/
theorem healthyStep_not_fail_on_any_unhealthy :
    healthyStep true insp6 [ha, hb] = .poll ∧
    (∃ x ∈ [ha, hb], ∃ d, insp6 x.id = .ok d ∧ d.health = some "unhealthy") ∧
    (∀ msg, healthyStep true insp6 [ha, hb] ≠ .failed msg) := by
  refine ⟨rfl, ⟨hb, by simp, ⟨"hb", "running", 0, true, some "unhealthy"⟩, rfl, rfl⟩, ?_⟩
  intro msg h
  exact WaitStep.noConfusion h

/-- C6 amended: the tick outcome for `service_healthy` is decided by the first
container in order that is not healthy — exited, unhealthy or no-healthcheck fail
(downgraded to a skip when the dependency is optional), a starting container keeps
the poll going, and success is reported only when every container is healthy. -/
theorem healthyStep_first_divergent (required : Bool)
    (inspect : String → Except String Detail) (pre post : List Summary)
    (c : Summary) (d : Detail)
    (hpre : ∀ p ∈ pre, ∃ dp, inspect p.id = .ok dp ∧ dp.status ≠ "exited" ∧
      dp.health = some "healthy")
    (hc : inspect c.id = .ok d) :
    (d.status = "exited" →
      healthyStep required inspect (pre ++ c :: post) =
        if required then
          .failed ("dependency failed to start: "
            ++ ("container " ++ d.name ++ " exited (" ++ toString d.exitCode ++ ")"))
        else .skipped) ∧
    (d.status ≠ "exited" → d.health = none →
      healthyStep required inspect (pre ++ c :: post) =
        if required then
          .failed ("dependency failed to start: "
            ++ ("container " ++ d.name ++ " has no healthcheck configured"))
        else .skipped) ∧
    (d.status ≠ "exited" → d.health = some "unhealthy" →
      healthyStep required inspect (pre ++ c :: post) =
        if required then
          .failed ("dependency failed to start: "
            ++ ("container " ++ d.name ++ " is unhealthy"))
        else .skipped) ∧
    (d.status ≠ "exited" → d.health = some "starting" →
      healthyStep required inspect (pre ++ c :: post) = .poll) ∧
    (∀ cs, isServiceHealthy inspect cs false = .ok true →
      healthyStep required inspect cs = .success ∧
      ∀ x ∈ cs, ∃ dx, inspect x.id = .ok dx ∧ dx.status ≠ "exited" ∧
        dx.health = some "healthy") := by
  have hskip := isServiceHealthy_prefix_skip inspect pre (c :: post) hpre
  refine ⟨fun hex => ?_, fun hex hh => ?_, fun hex hh => ?_, fun hex hh => ?_,
    fun cs hok => ⟨by simp [healthyStep, hok], isServiceHealthy_ok_true inspect cs hok⟩⟩
  · have : isServiceHealthy inspect (pre ++ c :: post) false =
        .error ("container " ++ d.name ++ " exited (" ++ toString d.exitCode ++ ")") := by
      rw [hskip]
      simp only [isServiceHealthy, hc, if_pos hex]
    cases required <;> simp [healthyStep, this]
  · have : isServiceHealthy inspect (pre ++ c :: post) false =
        .error ("container " ++ d.name ++ " has no healthcheck configured") := by
      rw [hskip]
      simp only [isServiceHealthy, hc, if_neg hex, Bool.and_false, hh]
      simp
    cases required <;> simp [healthyStep, this]
  · have : isServiceHealthy inspect (pre ++ c :: post) false =
        .error ("container " ++ d.name ++ " is unhealthy") := by
      rw [hskip]
      simp only [isServiceHealthy, hc, if_neg hex, Bool.and_false, hh]
      simp
    cases required <;> simp [healthyStep, this]
  · have : isServiceHealthy inspect (pre ++ c :: post) false = .ok false := by
      rw [hskip]
      simp only [isServiceHealthy, hc, if_neg hex, Bool.and_false, hh]
      simp
    simp [healthyStep, this]

/-- Witness for C6 amended: a lone unhealthy container fails a required wait tick. -/
theorem healthyStep_first_divergent_witness :
    healthyStep true insp6 [hb] =
      if true then
        .failed ("dependency failed to start: "
          ++ ("container " ++ "hb" ++ " is unhealthy"))
      else .skipped :=
  (healthyStep_first_divergent true insp6 [] [] hb
    ⟨"hb", "running", 0, true, some "unhealthy"⟩ (by simp) rfl).2.2.1
    (by decide) rfl

/-! ## C1: the traversal order of ensureService -/

/-- Membership in an insertion step. -/
theorem mem_insertBy {lt : α → α → Bool} {x a : α} {l : List α} :
    a ∈ insertBy lt x l ↔ a = x ∨ a ∈ l := by
  induction l with
  | nil => simp [insertBy]
  | cons y ys ih =>
    rw [insertBy]
    by_cases h : lt x y
    · rw [if_pos h]
      simp only [List.mem_cons]
    · rw [if_neg h]
      simp only [List.mem_cons, ih]
      tauto

/-- An insertion step is a permutation of consing. -/
theorem insertBy_perm (lt : α → α → Bool) (x : α) (l : List α) :
    (insertBy lt x l).Perm (x :: l) := by
  induction l with
  | nil => exact List.Perm.refl _
  | cons y ys ih =>
    rw [insertBy]
    by_cases h : lt x y
    · rw [if_pos h]
    · rw [if_neg h]
      exact (ih.cons y).trans (List.Perm.swap x y ys)

/-- The model sort permutes its input. -/
theorem sortBy_perm (lt : α → α → Bool) (l : List α) : (sortBy lt l).Perm l := by
  induction l with
  | nil => exact List.Perm.refl _
  | cons x xs ih => exact (insertBy_perm lt x (sortBy lt xs)).trans (ih.cons x)

/-- Pairwise order is preserved by an insertion step whose comparator decisions
agree with the (transitive) relation on the inserted element. -/
theorem pairwise_insertBy {R : α → α → Prop} {lt : α → α → Bool}
    (hT : Transitive R) {x : α} {l : List α}
    (hx : ∀ y ∈ l, (lt x y = true → R x y) ∧ (lt x y = false → R y x))
    (hl : l.Pairwise R) : (insertBy lt x l).Pairwise R := by
  induction l with
  | nil => simp [insertBy]
  | cons y ys ih =>
    rw [insertBy]
    rcases List.pairwise_cons.mp hl with ⟨hy, hys⟩
    by_cases h : lt x y = true
    · rw [if_pos h]
      refine List.Pairwise.cons ?_ hl
      intro z hz
      rcases List.mem_cons.mp hz with rfl | hz
      · exact (hx z (List.mem_cons_self _ _)).1 h
      · exact hT ((hx y (List.mem_cons_self _ _)).1 h) (hy z hz)
    · have hf : lt x y = false := by simpa using h
      rw [if_neg h]
      refine List.Pairwise.cons ?_ (ih (fun z hz => hx z (List.mem_cons_of_mem _ hz)) hys)
      intro z hz
      rcases mem_insertBy.mp hz with rfl | hz
      · exact (hx y (List.mem_cons_self _ _)).2 hf
      · exact hy z hz

/-- The model sort is pairwise-ordered by any transitive relation its comparator
decisions respect on the input list. -/
theorem pairwise_sortBy {R : α → α → Prop} {lt : α → α → Bool} (hT : Transitive R)
    {l : List α}
    (h : ∀ a ∈ l, ∀ b ∈ l, (lt a b = true → R a b) ∧ (lt a b = false → R b a)) :
    (sortBy lt l).Pairwise R := by
  induction l with
  | nil => exact List.Pairwise.nil
  | cons x xs ih =>
    rw [sortBy]
    refine pairwise_insertBy hT ?_
      (ih fun a ha b hb =>
        h a (List.mem_cons_of_mem _ ha) b (List.mem_cons_of_mem _ hb))
    intro y hy
    exact h x (List.mem_cons_self _ _) y
      (List.mem_cons_of_mem _ ((sortBy_perm lt xs).mem_iff.mp hy))

/-- The pre-reversal sort order as claim C1 words it: obsolete containers first,
the rest by **ascending** container number, ascending creation time as fallback
(the only change against `convLess` is the direction of the number comparison). -/
def claimLess (hash : ServiceConfig → Except String String)
    (networks volumes : Option Labels)
    (service : ServiceConfig) (policy : String) (a b : Summary) : Bool :=
  if obsoleteB hash networks volumes service policy a then true
  else if obsoleteB hash networks volumes service policy b then false
  else
    match atoi (a.labels.getD ContainerNumberLabel), atoi (b.labels.getD ContainerNumberLabel) with
    | some ni, some nj => ni < nj
    | _, _ => a.created < b.created

/-- The traversal order claim C1 describes: sort as worded, then reverse. -/
def claimTraversal (hash : ServiceConfig → Except String String)
    (networks volumes : Option Labels)
    (service : ServiceConfig) (policy : String) (cs : List Summary) : List Summary :=
  (sortBy (claimLess hash networks volumes service policy) cs).reverse

/-- A trivial hash oracle for concrete runs. -/
def hash0 : ServiceConfig → Except String String := fun _ => .ok "h"

/-- Up-to-date container fixture number 1. -/
def cnum1 : Summary := ⟨"c1", [(ContainerNumberLabel, "1")], "running", 100, [], []⟩

/-- Up-to-date container fixture number 2. -/
def cnum2 : Summary := ⟨"c2", [(ContainerNumberLabel, "2")], "running", 200, [], []⟩

/-- C1 counterexample: with two up-to-date containers numbered 1 and 2, the code
sorts them **descending** before the reversal, not ascending as claimed; under the
claim's own order, the traversal index 1 (dropped when the declared scale is 1)
would hold the *lowest*-numbered container, contradicting "the lowest numbers
survive", while the code's traversal drops number 2. -/
theorem ensureService_sort_not_ascending :
    sortBy (convLess hash0 none none svcPlain RecreateNever) [cnum1, cnum2] =
      [cnum2, cnum1] ∧
    sortBy (claimLess hash0 none none svcPlain RecreateNever) [cnum1, cnum2] =
      [cnum1, cnum2] ∧
    traversalOrder hash0 none none svcPlain RecreateNever [cnum1, cnum2] =
      [cnum1, cnum2] ∧
    claimTraversal hash0 none none svcPlain RecreateNever [cnum1, cnum2] =
      [cnum2, cnum1] ∧
    (claimTraversal hash0 none none svcPlain RecreateNever [cnum1, cnum2]).get? 1 =
      some cnum1 ∧
    (traversalOrder hash0 none none svcPlain RecreateNever [cnum1, cnum2]).get? 1 =
      some cnum2 := by
  refine ⟨?_, ?_, ?_, ?_, ?_, ?_⟩ <;> decide

/-- C1 amended: the comparator puts obsolete (`mustRecreate`) containers first and
the up-to-date rest in *descending* container-number order (ascending creation time
as fallback), and the list is then reversed; hence the traversal is a permutation
of the observed containers in which every up-to-date container precedes every
obsolete one and up-to-date containers appear in ascending number order, so the
indices `i ≥ expected` select the obsolete or highest-numbered containers to drop. -/
theorem traversalOrder_spec (hash : ServiceConfig → Except String String)
    (networks volumes : Option Labels) (service : ServiceConfig) (policy : String)
    (cs : List Summary)
    (hparse : ∀ c ∈ cs, (atoi (c.labels.getD ContainerNumberLabel)).isSome) :
    (traversalOrder hash networks volumes service policy cs).Perm cs ∧
    (traversalOrder hash networks volumes service policy cs).Pairwise (fun a b =>
      (obsoleteB hash networks volumes service policy a = true →
        obsoleteB hash networks volumes service policy b = true) ∧
      (obsoleteB hash networks volumes service policy a = false →
        obsoleteB hash networks volumes service policy b = false →
        (atoi (a.labels.getD ContainerNumberLabel)).getD 0 ≤
          (atoi (b.labels.getD ContainerNumberLabel)).getD 0)) := by
  constructor
  · exact (List.reverse_perm _).trans (sortBy_perm _ cs)
  · rw [traversalOrder, List.pairwise_reverse]
    refine pairwise_sortBy ?_ ?_
    · intro a b c hab hbc
      refine ⟨fun hc => hab.1 (hbc.1 hc), fun hc0 ha0 => ?_⟩
      by_cases hb : obsoleteB hash networks volumes service policy b = true
      · exact absurd (hab.1 hb) (by simp [ha0])
      · have hb0 : obsoleteB hash networks volumes service policy b = false := by
          simpa using hb
        exact le_trans (hbc.2 hc0 hb0) (hab.2 hb0 ha0)
    · intro a ha b hb
      obtain ⟨na, hna⟩ := Option.isSome_iff_exists.mp (hparse a ha)
      obtain ⟨nb, hnb⟩ := Option.isSome_iff_exists.mp (hparse b hb)
      by_cases hoa : obsoleteB hash networks volumes service policy a = true
      · constructor
        · intro _
          exact ⟨fun _ => hoa, fun _ h2 => absurd hoa (by simp [h2])⟩
        · intro hlt
          simp [convLess, hoa] at hlt
      · have hoa0 : obsoleteB hash networks volumes service policy a = false := by
          simpa using hoa
        by_cases hob : obsoleteB hash networks volumes service policy b = true
        · constructor
          · intro hlt
            simp [convLess, hoa0, hob] at hlt
          · intro _
            exact ⟨fun h => absurd h (by simp [hoa0]),
              fun _ hbf => absurd hob (by simp [hbf])⟩
        · have hob0 : obsoleteB hash networks volumes service policy b = false := by
            simpa using hob
          constructor
          · intro hlt
            simp only [convLess, hoa0, hob0, Bool.false_eq_true, if_false,
              hna, hnb, decide_eq_true_eq] at hlt
            exact ⟨fun h => absurd h (by simp [hob0]),
              fun _ _ => by simp [hna, hnb]; omega⟩
          · intro hlt
            simp only [convLess, hoa0, hob0, Bool.false_eq_true, if_false,
              hna, hnb, decide_eq_false_iff_not] at hlt
            exact ⟨fun h => absurd h (by simp [hoa0]),
              fun _ _ => by simp [hna, hnb]; omega⟩

/-- Witness for C1 amended at two concrete up-to-date containers. -/
theorem traversalOrder_spec_witness :
    (traversalOrder hash0 none none svcPlain RecreateNever [cnum1, cnum2]).Perm
      [cnum1, cnum2] ∧
    (traversalOrder hash0 none none svcPlain RecreateNever [cnum1, cnum2]).Pairwise
      (fun a b =>
        (obsoleteB hash0 none none svcPlain RecreateNever a = true →
          obsoleteB hash0 none none svcPlain RecreateNever b = true) ∧
        (obsoleteB hash0 none none svcPlain RecreateNever a = false →
          obsoleteB hash0 none none svcPlain RecreateNever b = false →
          (atoi (a.labels.getD ContainerNumberLabel)).getD 0 ≤
            (atoi (b.labels.getD ContainerNumberLabel)).getD 0)) :=
  traversalOrder_spec hash0 none none svcPlain RecreateNever [cnum1, cnum2] (by decide)

/-! ## C7: the store is written once the await phase is reached -/

/-- C7: whenever `ensureService` gets past its early-return gates (provider, scale
check, reference resolution, and the traversal loop's `mustRecreate` /
stop-dependents failures), the returned store replaces the service's entry with the
assembled `updated` list and the returned error is exactly the first collected task
error — the write is unconditional on task failures. -/
theorem ensureService_writes_store_on_reach (env : ConvEnv) (store : Store)
    (projectName : String) (service : ServiceConfig) (policy : String)
    (expected : Nat) (svcR : ServiceConfig) (st : LoopSt)
    (hprov : service.provider = false)
    (hscale : getScale service = .ok expected)
    (hres : resolveServiceReferences store service = .ok svcR)
    (hloop : goItems env svcR policy expected 0
      (traversalOrder env.hash env.networks env.volumes svcR policy (store service.name))
      ⟨store, List.replicate expected Summary.default, [], []⟩ = .ok st) :
    (ensureService env store projectName service policy).store service.name =
      (scaleUp env projectName svcR
        (nextContainerNumber (traversalOrder env.hash env.networks env.volumes svcR policy
          (store service.name)))
        (store service.name).length 0 (expected - (store service.name).length) st).updated ∧
    (ensureService env store projectName service policy).err =
      firstError (scaleUp env projectName svcR
        (nextContainerNumber (traversalOrder env.hash env.networks env.volumes svcR policy
          (store service.name)))
        (store service.name).length 0 (expected - (store service.name).length) st).results := by
  simp only [ensureService, hprov, Bool.false_eq_true, if_false, hscale, hres, hloop]
  exact ⟨by rw [Store.set, if_pos rfl], trivial⟩

/-- A service fixture with scale 0 (everything observed is scaled down). -/
def svcScale0 : ServiceConfig :=
  ⟨"web", "", 0, false, [], [], [], "", "", "", [], []⟩

/-- An environment whose scale-down task fails. -/
def envBoom : ConvEnv := { trivEnv with stopAndRemove := fun _ => .error "boom" }

/-- A store observing one `web` container. -/
def store7 : Store := fun n => if n = "web" then [cnum1] else []

/-- Witness for C7: with scale 0 and a failing scale-down task, the store entry is
still replaced (by the empty updated list) and the task error is returned. -/
theorem ensureService_writes_store_on_reach_witness :
    (ensureService envBoom store7 "proj" svcScale0 "diverged").store svcScale0.name =
      (scaleUp envBoom "proj" svcScale0
        (nextContainerNumber (traversalOrder envBoom.hash envBoom.networks envBoom.volumes
          svcScale0 "diverged" (store7 svcScale0.name)))
        (store7 svcScale0.name).length 0 (0 - (store7 svcScale0.name).length)
        ⟨store7, [], [.error "boom"], [.scaleDown "c1"]⟩).updated ∧
    (ensureService envBoom store7 "proj" svcScale0 "diverged").err =
      firstError (scaleUp envBoom "proj" svcScale0
        (nextContainerNumber (traversalOrder envBoom.hash envBoom.networks envBoom.volumes
          svcScale0 "diverged" (store7 svcScale0.name)))
        (store7 svcScale0.name).length 0 (0 - (store7 svcScale0.name).length)
        ⟨store7, [], [.error "boom"], [.scaleDown "c1"]⟩).results :=
  ensureService_writes_store_on_reach envBoom store7 "proj" svcScale0 "diverged"
    0 svcScale0 ⟨store7, [], [.error "boom"], [.scaleDown "c1"]⟩ rfl rfl rfl rfl

/-! ## C8: scale-up numbering and naming -/

/-- The fold step of `nextContainerNumber`. -/
def maxStep (maxNumber : Int) (c : Summary) : Int :=
  match atoi (c.labels.getD ContainerNumberLabel) with
  | none => maxNumber
  | some n => if n > maxNumber then n else maxNumber

/-- `nextContainerNumber` is the max fold plus one. -/
theorem nextContainerNumber_eq_foldl (cs : List Summary) :
    nextContainerNumber cs = cs.foldl maxStep 0 + 1 := rfl

/-- The max fold never decreases below its accumulator. -/
theorem le_foldl_maxStep (cs : List Summary) : ∀ acc : Int, acc ≤ cs.foldl maxStep acc := by
  induction cs with
  | nil => exact fun _ => le_refl _
  | cons c rest ih =>
    intro acc
    refine le_trans ?_ (ih (maxStep acc c))
    rw [maxStep]
    rcases atoi (c.labels.getD ContainerNumberLabel) with _ | n
    · exact le_refl _
    · dsimp only
      split <;> omega

/-- Every parsed container number is bounded by the max fold. -/
theorem mem_le_foldl_maxStep (cs : List Summary) : ∀ (acc : Int) (c : Summary) (n : Int),
    c ∈ cs → atoi (c.labels.getD ContainerNumberLabel) = some n →
    n ≤ cs.foldl maxStep acc := by
  induction cs with
  | nil => intro _ _ _ h; exact absurd h (List.not_mem_nil _)
  | cons x rest ih =>
    intro acc c n hmem hn
    rcases List.mem_cons.mp hmem with rfl | hmem
    · refine le_trans ?_ (le_foldl_maxStep rest (maxStep acc c))
      simp only [maxStep, hn]
      split <;> omega
    · exact ih (maxStep acc x) c n hmem hn

/-- Unparseable labels leave the max fold unchanged. -/
theorem foldl_maxStep_all_none (cs : List Summary)
    (h : ∀ c ∈ cs, atoi (c.labels.getD ContainerNumberLabel) = none) :
    ∀ acc : Int, cs.foldl maxStep acc = acc := by
  induction cs with
  | nil => exact fun _ => rfl
  | cons c rest ih =>
    intro acc
    rw [List.foldl_cons]
    have hc : maxStep acc c = acc := by
      rw [maxStep, h c (List.mem_cons_self _ _)]
    rw [hc]
    exact ih (fun q hq => h q (List.mem_cons_of_mem _ hq)) acc

/-- The operation trace appended by the scale-up loop: one create per new index,
numbered consecutively from the loop offset. -/
theorem scaleUp_ops (env : ConvEnv) (projectName : String) (svc : ServiceConfig)
    (next : Int) (actual : Nat) : ∀ (m i : Nat) (st : LoopSt),
    (scaleUp env projectName svc next actual i m st).ops =
      st.ops ++ (List.range m).map (fun k =>
        SvcOp.create (getContainerName projectName svc (next + (↑(i + k) : Int)))
          (next + (↑(i + k) : Int))) := by
  intro m
  induction m with
  | zero => intro i st; simp [scaleUp]
  | succ m ih =>
    intro i st
    rw [scaleUp, ih (i + 1)]
    simp only [List.range_succ_eq_map, List.map_cons, List.map_map, Nat.add_zero]
    rw [List.append_assoc, List.singleton_append]
    congr 2
    refine List.map_congr_left fun k _ => ?_
    have : i + 1 + k = i + (k + 1) := by omega
    simp only [Function.comp_apply, this]

/-- C8: `nextContainerNumber` is one more than every parsed observed number (and 1
when nothing parses), it is positive, and once `ensureService` reaches its await
phase the scheduled operations end with one create per missing replica, the k-th
new container getting number `next + k` and the canonical `getContainerName` name;
in particular the new numbers are distinct from each other and from every parsed
observed number. -/
theorem ensureService_scale_up_numbers (env : ConvEnv) (store : Store)
    (projectName : String) (service : ServiceConfig) (policy : String)
    (expected : Nat) (svcR : ServiceConfig) (st : LoopSt)
    (hprov : service.provider = false)
    (hscale : getScale service = .ok expected)
    (hres : resolveServiceReferences store service = .ok svcR)
    (hloop : goItems env svcR policy expected 0
      (traversalOrder env.hash env.networks env.volumes svcR policy (store service.name))
      ⟨store, List.replicate expected Summary.default, [], []⟩ = .ok st) :
    (∀ (cs : List Summary) (c : Summary) (n : Int), c ∈ cs →
      atoi (c.labels.getD ContainerNumberLabel) = some n → n < nextContainerNumber cs) ∧
    (∀ cs : List Summary, (∀ c ∈ cs, atoi (c.labels.getD ContainerNumberLabel) = none) →
      nextContainerNumber cs = 1) ∧
    (∀ cs : List Summary, 0 < nextContainerNumber cs) ∧
    ((ensureService env store projectName service policy).ops =
      st.ops ++ (List.range (expected - (store service.name).length)).map (fun (k : Nat) =>
        SvcOp.create (getContainerName projectName svcR
            (nextContainerNumber (traversalOrder env.hash env.networks env.volumes svcR
              policy (store service.name)) + (k : Int)))
          (nextContainerNumber (traversalOrder env.hash env.networks env.volumes svcR
            policy (store service.name)) + (k : Int)))) ∧
    (∀ (cs : List Summary) (k1 k2 : Nat),
      nextContainerNumber cs + (k1 : Int) = nextContainerNumber cs + (k2 : Int) →
      k1 = k2) ∧
    (∀ (cs : List Summary) (k : Nat) (c : Summary) (n : Int), c ∈ cs →
      atoi (c.labels.getD ContainerNumberLabel) = some n →
      n ≠ nextContainerNumber cs + (k : Int)) := by
  have hmax : ∀ (cs : List Summary) (c : Summary) (n : Int), c ∈ cs →
      atoi (c.labels.getD ContainerNumberLabel) = some n → n < nextContainerNumber cs := by
    intro cs c n hmem hn
    have := mem_le_foldl_maxStep cs 0 c n hmem hn
    rw [nextContainerNumber_eq_foldl]
    omega
  refine ⟨hmax, ?_, ?_, ?_, ?_, ?_⟩
  · intro cs h
    rw [nextContainerNumber_eq_foldl, foldl_maxStep_all_none cs h 0]
    omega
  · intro cs
    have := le_foldl_maxStep cs 0
    rw [nextContainerNumber_eq_foldl]
    omega
  · simp only [ensureService, hprov, Bool.false_eq_true, if_false, hscale, hres, hloop]
    rw [scaleUp_ops]
    simp only [Nat.zero_add]
  · intro cs k1 k2 h
    omega
  · intro cs k c n hmem hn
    have := hmax cs c n hmem hn
    have hk : (0 : Int) ≤ (k : Int) := Int.natCast_nonneg k
    omega

/-- Witness for C8 at the concrete reach configuration of the C7 witness. -/
theorem ensureService_scale_up_numbers_witness :
    (∀ (cs : List Summary) (c : Summary) (n : Int), c ∈ cs →
      atoi (c.labels.getD ContainerNumberLabel) = some n → n < nextContainerNumber cs) ∧
    (∀ cs : List Summary, (∀ c ∈ cs, atoi (c.labels.getD ContainerNumberLabel) = none) →
      nextContainerNumber cs = 1) ∧
    (∀ cs : List Summary, 0 < nextContainerNumber cs) ∧
    ((ensureService envBoom store7 "proj" svcScale0 "diverged").ops =
      [SvcOp.scaleDown "c1"] ++ (List.range (0 - (store7 svcScale0.name).length)).map (fun (k : Nat) =>
        SvcOp.create (getContainerName "proj" svcScale0
            (nextContainerNumber (traversalOrder envBoom.hash envBoom.networks envBoom.volumes
              svcScale0 "diverged" (store7 svcScale0.name)) + (k : Int)))
          (nextContainerNumber (traversalOrder envBoom.hash envBoom.networks envBoom.volumes
            svcScale0 "diverged" (store7 svcScale0.name)) + (k : Int)))) ∧
    (∀ (cs : List Summary) (k1 k2 : Nat),
      nextContainerNumber cs + (k1 : Int) = nextContainerNumber cs + (k2 : Int) →
      k1 = k2) ∧
    (∀ (cs : List Summary) (k : Nat) (c : Summary) (n : Int), c ∈ cs →
      atoi (c.labels.getD ContainerNumberLabel) = some n →
      n ≠ nextContainerNumber cs + (k : Int)) :=
  ensureService_scale_up_numbers envBoom store7 "proj" svcScale0 "diverged"
    0 svcScale0 ⟨store7, [], [.error "boom"], [.scaleDown "c1"]⟩ rfl rfl rfl rfl

end Convergence
